import Mathlib

/-!
# Controller test harness (`tester.go`)

A shallow embedding of the harness in `src/tester.go` and the properties of
its `Run` entry point.

Modelling conventions.

* Go pointers are indices into per-type stores of a `World`; a nil pointer is
  `none`.  The stores are total maps, so a non-nil pointer always refers to an
  object.
* The harness's mutex is not modelled: every operation is a single atomic step.
* A Go function that may panic returns its result together with the state it
  left behind, so the effects that happened before the panic stay visible.
* `State.trace` is a ghost log: the embedding appends an event exactly where the
  source calls a hook, a lifecycle method or the execution body.  Hooks and the
  body are arbitrary functions on the `World`; they do not see the harness's
  unexported fields, the framework configuration or the ghost log.
* A `[]byte` is a list of characters, one character per byte.
-/

namespace Tester

/-! ## Go values -/

/-- Go values of type `interface{}` that parameters and controller data hold. -/
inductive Value where
  | nil
  | bool (b : Bool)
  | int (i : Int)
  | str (s : String)
  | strMap (kvs : List (String × String))
deriving DecidableEq, Repr, Inhabited

/-- The text `fmt.Sprint(v)` produces.  A map is printed as Go does,
`map[k1:v1 k2:v2]`; its entries are kept in key order. -/
def Sprint : Value → String
  | .nil => "<nil>"
  | .bool b => if b then "true" else "false"
  | .int i => toString i
  | .str s => s
  | .strMap kvs => "map[" ++ " ".intercalate (kvs.map fun kv => kv.1 ++ ":" ++ kv.2) ++ "]"

/-- A Go `error` value, identified with the text `Error()` returns. -/
structure GoError where
  text : String
deriving DecidableEq, Repr, Inhabited

/-- The constructor `errors.New`. -/
def errors_New (s : String) : GoError := ⟨s⟩

/-- The value a panic carries, as `recover()` returns it. -/
inductive PanicVal where
  /-- The sentinel `beego.ErrAbort`. -/
  | errAbort
  /-- A run-time error raised by the Go runtime (nil dereference and the like). -/
  | runtimeError (msg : String)
  /-- The call `panic(v)` for an ordinary value `v`; `panic(nil)` is `val Value.nil`. -/
  | val (v : Value)
deriving DecidableEq, Repr, Inhabited

abbrev Bytes := List Char

/-! ## Association maps

Go maps with string keys are association lists with pairwise distinct keys;
`aset` keeps that shape. -/

/-- Read `m[k]`. -/
def aget {κ ν : Type} [DecidableEq κ] (k : κ) : List (κ × ν) → Option ν
  | [] => none
  | (k', v') :: m => if k' = k then some v' else aget k m

/-- Assign `m[k] = v`. -/
def aset {κ ν : Type} [DecidableEq κ] (k : κ) (v : ν) : List (κ × ν) → List (κ × ν)
  | [] => [(k, v)]
  | (k', v') :: m => if k' = k then (k, v) :: m else (k', v') :: aset k v m

/-! ## The stack capture of `run` (lines 172-181) -/

/-- The call `runtime.Stack(buf, false)` when the formatted trace of the
goroutine is `stk`: it writes the first `min (len buf) (len stk)` bytes of the
trace into `buf` and returns how many it wrote. -/
def runtime_Stack (stk : Bytes) (buf : Bytes) : Nat × Bytes :=
  let n := min buf.length stk.length
  (n, stk.take n ++ buf.drop n)

/-- The allocation `make([]byte, n)`. -/
def makeBytes (n : Nat) : Bytes := List.replicate n (Char.ofNat 0)

/-- The `for` loop of `printStack` started with buffer `buf`, run for at most
`fuel` iterations.  The result is the returned slice `buf[:n]` together with
the lengths of the buffers handed to `runtime.Stack`, in order; `none` means
the fuel ran out. -/
def printStackLoop (stk : Bytes) : Nat → Bytes → Option (Bytes × List Nat)
  | 0, _ => none
  | fuel + 1, buf =>
    let (n, buf1) := runtime_Stack stk buf
    if n < buf1.length then some (buf1.take n, [buf1.length])
    else (printStackLoop stk fuel (makeBytes (2 * buf1.length))).map
      fun r => (r.1, buf1.length :: r.2)

/-- The closure `printStack`: start with 1024 bytes.  `stk.length + 1`
iterations always suffice (`printStackLoop_spec` below). -/
def printStack (stk : Bytes) : Bytes :=
  match printStackLoop stk (stk.length + 1) (makeBytes 1024) with
  | some (out, _) => out
  | none => []

/-! ## Requests, recorders, contexts and controllers -/

abbrev Ptr := Nat

/-- The fields of `http.Request` the harness touches.  `URL` is kept as the
text handed to `http.NewRequest`; `Header` and `Form` are string-keyed maps to
string lists, and a nil `Form` is `none`. -/
structure http_Request where
  Method : String
  URL : Option String
  Header : List (String × List String)
  Body : Option String
  Form : Option (List (String × List String))
deriving DecidableEq, Repr, Inhabited

/-- The `httptest.ResponseRecorder`: status code, whether it was written
explicitly, header and body. -/
structure ResponseRecorder where
  Code : Nat
  wroteHeader : Bool
  HeaderMap : List (String × List String)
  Body : String
deriving DecidableEq, Repr, Inhabited

/-- The `context.Context` with its `BeegoInput`: the request and response
writer it wraps, the path parameters (`pnames`/`pvalues`), the copied request
body and the data map. -/
structure Context where
  Request : Option Ptr
  ResponseWriter : Option Ptr
  params : List (String × String)
  RequestBody : String
  data : List (Value × Value)
deriving DecidableEq, Repr, Inhabited

/-- The `beego.Controller` fields that `Init` and the harness touch. -/
structure beego_Controller where
  Ctx : Option Ptr
  Data : List (Value × Value)
  controllerName : String
  actionName : String
  TplName : String
  Layout : String
  TplExt : String
  EnableRender : Bool
  EnableXSRF : Bool
  AppController : Option Ptr
  CruSession : Option (List (Value × Value))
deriving DecidableEq, Repr, Inhabited

/-- The heap: one store per object type and the next free address of each store
the harness allocates in. -/
structure World where
  reqs : Ptr → http_Request
  nextReq : Ptr
  recs : Ptr → ResponseRecorder
  nextRec : Ptr
  ctxs : Ptr → Context
  nextCtx : Ptr
  ctrls : Ptr → beego_Controller

/-- Store `v` at address `p`. -/
def store {α : Type} (m : Ptr → α) (p : Ptr) (v : α) : Ptr → α :=
  fun q => if q = p then v else m q

def World.allocReq (w : World) (r : http_Request) : World × Ptr :=
  ({ w with reqs := store w.reqs w.nextReq r, nextReq := w.nextReq + 1 }, w.nextReq)

def World.allocRec (w : World) (r : ResponseRecorder) : World × Ptr :=
  ({ w with recs := store w.recs w.nextRec r, nextRec := w.nextRec + 1 }, w.nextRec)

def World.allocCtx (w : World) (c : Context) : World × Ptr :=
  ({ w with ctxs := store w.ctxs w.nextCtx c, nextCtx := w.nextCtx + 1 }, w.nextCtx)

/-! ## Hooks, the execution body and the framework -/

/-- What a `func() error` hook does: it returns nil, returns an error, or panics. -/
inductive HookResult where
  | ok
  | fail (e : GoError)
  | panics (p : PanicVal)
deriving DecidableEq, Repr

abbrev Hook := World → World × HookResult

/-- What the execution body `h` does: it returns, or it panics with a value
while the goroutine's formatted stack trace is `stack`. -/
inductive BodyResult where
  | returns
  | panics (p : PanicVal) (stack : Bytes)
deriving DecidableEq, Repr

abbrev Body := World → World × BodyResult

/-- A configured `beego.BConfig.RecoverFunc`, described by what it does with the
panic it recovers: the world it leaves and the panic it raises again, if any.
Deferred with no panic in flight it does nothing, as beego's own `recoverPanic`. -/
abbrev RecoverFn := Ptr → PanicVal → World → World × Option PanicVal

/-- The fields of the global `beego.BConfig` the harness reads or writes. -/
structure BConfig where
  CopyRequestBody : Bool
  RouterCaseSensitive : Bool
  MaxMemory : Nat
  RecoverFunc : Option RecoverFn

/-- The methods of `context.BeegoInput` that read and parse a request body.
They belong to the framework, outside this repository, and are taken as
parameters; the first argument of each is the context they are called on. -/
structure Framework where
  IsUpload : Ptr → World → Bool
  CopyBody : Ptr → Nat → World → World
  ParseFormOrMulitForm : Ptr → Nat → World → World

/-- The table `beego.HTTPMETHOD` of the methods the framework recognises. -/
def HTTPMETHOD : List String :=
  ["GET", "POST", "PUT", "DELETE", "PATCH", "OPTIONS", "HEAD", "TRACE", "CONNECT",
   "MKCOL", "COPY", "MOVE", "PROPFIND", "PROPPATCH", "LOCK", "UNLOCK"]

/-! ## The harness -/

/-- The struct `tester` (the embedded `sync.RWMutex` apart). -/
structure tester where
  err : Option GoError
  req : Option Ptr
  control : Option Ptr
  params : Option (List (String × Value))
  beforeCallback : Option Hook
  afterCallback : Option Hook
  beec : Option Ptr

/-- The calls the ghost log records, with the outcome of each hook and of the body. -/
inductive Event where
  | before (r : HookResult)
  | init
  | prepare
  | body (r : BodyResult)
  | finish
  | after (r : HookResult)
deriving DecidableEq, Repr

/-- The harness, the heap, the framework configuration and the ghost log. -/
structure State where
  t : tester
  w : World
  cfg : BConfig
  trace : List Event

/-- The zero value `new(tester)`. -/
def tester.new : tester :=
  { err := none, req := none, control := none, params := none,
    beforeCallback := none, afterCallback := none, beec := none }

/-! ## Library calls the harness makes -/

/-- The panic of dereferencing a nil pointer or calling a method on a nil interface. -/
def nilDeref : PanicVal :=
  .runtimeError "invalid memory address or nil pointer dereference"

/-- The method `Get` of `http.Header` and of `url.Values`: the first value
stored under the key, or `""`. -/
def valuesGet (k : String) (h : List (String × List String)) : String :=
  match aget k h with
  | some (v :: _) => v
  | _ => ""

/-- The token characters of an HTTP method name. -/
def isTokenChar (c : Char) : Bool :=
  c.isAlphanum || "!#$%&*+-.^_|~".data.contains c || c.toNat == 39 || c.toNat == 96

/-- The constructor `http.NewRequest`, as far as its outcome depends on the
method and the raw URL: an empty method means GET, a method must be a token,
and a URL with a control byte is rejected.  The URL is not split into parts. -/
def http_NewRequest (method url : String) (body : Option String) : Except String http_Request :=
  let method := if method = "" then "GET" else method
  if !(method.data.all isTokenChar) then .error ("net/http: invalid method " ++ method)
  else if url.data.any (fun c => c.toNat < 32 || c.toNat == 127) then
    .error "net/url: invalid control character in URL"
  else .ok { Method := method, URL := some url, Header := [], Body := body, Form := none }

/-- The constructor `httptest.NewRecorder`. -/
def httptest_NewRecorder : ResponseRecorder :=
  { Code := 200, wroteHeader := false, HeaderMap := [], Body := "" }

/-- The call `http.Error(rw, msg, code)` on a recorder. -/
def http_Error (rw : Option Ptr) (msg : String) (code : Nat) (w : World) :
    World × Option PanicVal :=
  match rw with
  | none => (w, some nilDeref)
  | some p =>
    let r := w.recs p
    let hdr := aset "X-Content-Type-Options" ["nosniff"]
      (aset "Content-Type" ["text/plain; charset=utf-8"] r.HeaderMap)
    let r1 : ResponseRecorder :=
      if r.wroteHeader then { r with HeaderMap := hdr, Body := r.Body ++ msg ++ "\n" }
      else { Code := code, wroteHeader := true, HeaderMap := hdr, Body := r.Body ++ msg ++ "\n" }
    ({ w with recs := store w.recs p r1 }, none)

/-- The method `BeegoInput.Param`. -/
def Input_Param (ctx : Ptr) (key : String) (w : World) : String :=
  (aget key (w.ctxs ctx).params).getD ""

/-- The method `BeegoInput.SetParam`. -/
def Input_SetParam (ctx : Ptr) (key val : String) (w : World) : World :=
  let c := w.ctxs ctx
  { w with ctxs := store w.ctxs ctx { c with params := aset key val c.params } }

/-- The method `Controller.Init` of `beego.Controller`.  It takes the data map of
the context, which is empty in a context just built; the harness reads the map
through the controller only, so the controller's view of it is what is kept. -/
def Controller_Init (c : Ptr) (ctx : Ptr) (controllerName actionName : String)
    (app : Option Ptr) (w : World) : World :=
  let c1 : beego_Controller :=
    { w.ctrls c with
      Layout := "", TplName := "", controllerName := controllerName,
      actionName := actionName, Ctx := some ctx, TplExt := "tpl", AppController := app,
      EnableRender := true, EnableXSRF := true, Data := (w.ctxs ctx).data }
  { w with ctrls := store w.ctrls c c1 }

/-- The method `Controller.Prepare` of `beego.Controller`: it does nothing. -/
def Controller_Prepare (_c : Ptr) (w : World) : World := w

/-- The method `Controller.Finish` of `beego.Controller`: it does nothing. -/
def Controller_Finish (_c : Ptr) (w : World) : World := w

/-- The method `Controller.SetSession` of `beego.Controller`. -/
def Controller_SetSession (c : Ptr) (name value : Value) (w : World) : World :=
  let c0 := w.ctrls c
  { w with ctrls := store w.ctrls c
             { c0 with CruSession := some (aset name value (c0.CruSession.getD [])) } }

/-- The method `Request.AddCookie` (the sanitising of name and value apart). -/
def Request_AddCookie (r : Ptr) (name value : String) (w : World) : World :=
  let q := w.reqs r
  let s := name ++ "=" ++ value
  let c := valuesGet "Cookie" q.Header
  let hdr := if c ≠ "" then aset "Cookie" [c ++ "; " ++ s] q.Header
             else aset "Cookie" [s] q.Header
  { w with reqs := store w.reqs r { q with Header := hdr } }

/-! ## The configuration methods (lines 37-117) -/

/-- `Reset` (lines 41-45). -/
def Reset (s : State) : State :=
  { s with t := { s.t with req := none, beec := none } }

/-- `BeforeCallback` (lines 47-52). -/
def BeforeCallback (callback : Option Hook) (s : State) : State :=
  { s with t := { s.t with beforeCallback := callback } }

/-- `AfterCallback` (lines 54-59). -/
def AfterCallback (callback : Option Hook) (s : State) : State :=
  { s with t := { s.t with afterCallback := callback } }

/-- `SetParams` (lines 61-66). -/
def SetParams (p : Option (List (String × Value))) (s : State) : State :=
  { s with t := { s.t with params := p } }

/-- `Params` (lines 68-73). -/
def Params (p : Option (List (String × Value))) (s : State) : State :=
  { s with t := { s.t with params := p } }

/-- `(*tester).Controller` (lines 75-90). -/
def Controller (bc : Option Ptr) (s : State) : State × Option PanicVal :=
  match bc with
  | none => (s, some (.val (.str "beego.Controller can not nil")))
  | some c =>
    let (w1, r) := s.w.allocReq
      { Method := "", URL := none, Header := [], Body := none, Form := none }
    let (w2, ctx) := w1.allocCtx
      { Request := some r, ResponseWriter := none, params := [], RequestBody := "", data := [] }
    let c0 := w2.ctrls c
    let w3 : World :=
      { w2 with ctrls := store w2.ctrls c { c0 with Ctx := some ctx, CruSession := some [] } }
    ({ s with w := w3, t := { s.t with control := some c, beec := some c } }, none)

/-- `(*tmanager).Controller` (lines 37-39): bind on a new harness. -/
def tmanager_Controller (bc : Option Ptr) (s : State) : State × Option PanicVal :=
  Controller bc { s with t := tester.new }

/-- `SetSession` (lines 92-100). -/
def SetSession (name value : Value) (s : State) : State × Option PanicVal :=
  match s.t.beec with
  | none => (s, some (.val (.str "beego.Controller can not nil")))
  | some c => ({ s with w := Controller_SetSession c name value s.w }, none)

/-- `AddCookie` (lines 102-110). -/
def AddCookie (name value : String) (s : State) : State × Option PanicVal :=
  match s.t.beec with
  | none => (s, some (.val (.str "beego.Controller can not nil")))
  | some c =>
    match (s.w.ctrls c).Ctx with
    | none => (s, some nilDeref)
    | some ctx =>
      match (s.w.ctxs ctx).Request with
      | none => (s, some nilDeref)
      | some r => ({ s with w := Request_AddCookie r name value s.w }, none)

/-- `Request` (lines 112-117). -/
def Request (r : Option Ptr) (s : State) : State :=
  { s with t := { s.t with req := r } }

/-- The unexported `request` (lines 120-128). -/
def request (method path : String) (reader : Option String) (contentType : String)
    (s : State) : State × Option PanicVal :=
  match http_NewRequest method path reader with
  | .error e => (s, some (.val (.str ("Can't create Request:%s" ++ e))))
  | .ok r =>
    let (w1, p) := s.w.allocReq { r with Header := aset "Content-Type" [contentType] r.Header }
    ({ s with w := w1, t := { s.t with req := some p } }, none)

/-! ## Context construction (lines 188-226) -/

/-- The loop of lines 214-216: register the segments of the splat as the
positional parameters `"0"`, `"1"`, ... -/
def setSplatParams (ctx : Ptr) (segs : List String) (w : World) : World :=
  (segs.enum).foldl (fun w kv => Input_SetParam ctx (toString kv.1) kv.2 w) w

/-- The loop of lines 220-222: register every pending parameter, string-converted,
as a path parameter. -/
def setParams (ctx : Ptr) (ps : List (String × Value)) (w : World) : World :=
  ps.foldl (fun w kv => Input_SetParam ctx kv.1 (Sprint kv.2) w) w

/-- Lines 196-225 of `initContext`, the part the deferred recover function
guards; `ctx` is the context of lines 189-191. -/
def initContextBody (fw : Framework) (ctx : Ptr) (r rw : Option Ptr) (s : State) :
    State × Option PanicVal :=
  match r with
  | none => (s, some nilDeref)
  | some rp =>
    match (s.w.reqs rp).URL with
    | none => (s, some nilDeref)
    | some path =>
      let _urlPath := if !s.cfg.RouterCaseSensitive then path.toLower else path
      if (s.w.reqs rp).Method ∉ HTTPMETHOD then
        let (w1, p) := http_Error rw "Method Not Allowed" 405 s.w
        ({ s with w := w1 }, p)
      else
        let w1 :=
          if (s.w.reqs rp).Method ≠ "GET" ∧ (s.w.reqs rp).Method ≠ "HEAD" then
            let w0 := if s.cfg.CopyRequestBody && !fw.IsUpload ctx s.w
                      then fw.CopyBody ctx s.cfg.MaxMemory s.w else s.w
            fw.ParseFormOrMulitForm ctx s.cfg.MaxMemory w0
          else s.w
        let splat := Input_Param ctx ":splat" w1
        let w2 := if splat ≠ "" then setSplatParams ctx (splat.splitOn "/") w1 else w1
        let w3 := match s.t.params with
                  | none => w2
                  | some ps => setParams ctx ps w2
        match s.t.control with
        | none => ({ s with w := w3 }, some nilDeref)
        | some c =>
          let w4 := Controller_Init c ctx "" "" s.t.control w3
          let w5 := Controller_Prepare c w4
          ({ s with w := w5, trace := s.trace ++ [Event.init, Event.prepare] }, none)

/-- `initContext` (lines 188-226): build the context, defer the configured
recover function, then run the body above. -/
def initContext (fw : Framework) (r rw : Option Ptr) (s : State) : State × Option PanicVal :=
  let (w0, ctx) := s.w.allocCtx
    { Request := r, ResponseWriter := rw, params := [], RequestBody := "", data := [] }
  let (s1, p) := initContextBody fw ctx r rw { s with w := w0 }
  match s.cfg.RecoverFunc, p with
  | some f, some pv =>
    let (w2, p2) := f ctx pv s1.w
    ({ s1 with w := w2 }, p2)
  | _, _ => (s1, p)

/-! ## Execution (lines 130-186) -/

/-- `run` (lines 166-186): call the body and turn a panic other than nil and
`beego.ErrAbort` into the stored error. -/
def run (h : Body) (s : State) : State :=
  let (w1, res) := h s.w
  let s1 := { s with w := w1, trace := s.trace ++ [Event.body res] }
  match res with
  | .returns => s1
  | .panics p stack =>
    if p = PanicVal.val Value.nil ∨ p = PanicVal.errAbort then s1
    else { s1 with t := { s1.t with err := some (errors_New (String.mk (printStack stack))) } }

/-- How a call of `Run` ends: it returns an output and an error, or it panics. -/
inductive RunOut where
  | returned (out : Value) (err : Option GoError)
  | panicked (p : PanicVal)
deriving DecidableEq, Repr

/-- Call a hook and log the call with its outcome. -/
def callHook (ev : HookResult → Event) (f : Hook) (s : State) : State × HookResult :=
  let (w1, res) := f s.w
  ({ s with w := w1, trace := s.trace ++ [ev res] }, res)

/-- The loop of lines 149-151 on the form `from`. -/
def setForm (ps : List (String × Value)) (from_ : List (String × List String)) :
    List (String × List String) :=
  ps.foldl (fun m kv => aset kv.1 [Sprint kv.2] m) from_

/-- Lines 142-154 of `Run`: build the recorder and the context, copy the
pending parameters into the request's form and clear them. -/
def runContext (fw : Framework) (s : State) : State × Option PanicVal :=
  let (w1, recover) := s.w.allocRec httptest_NewRecorder
  match initContext fw s.t.req (some recover) { s with w := w1 } with
  | (s1, some p) => (s1, some p)
  | (s1, none) =>
    match s1.t.req with
    | none => (s1, some nilDeref)
    | some rp =>
      let from0 := ((s1.w.reqs rp).Form).getD []
      let from1 := match s1.t.params with
                   | none => from0
                   | some ps => setForm ps from0
      let q := s1.w.reqs rp
      ({ s1 with t := { s1.t with params := none },
                 w := { s1.w with reqs := store s1.w.reqs rp { q with Form := some from1 } } },
       none)

/-- Lines 155-163 of `Run`: execute the body, call `Finish`, run the after-hook
and return the controller's `Data["json"]` with the stored error. -/
def runExec (h : Body) (s : State) : State × RunOut :=
  let s1 := run h s
  match s1.t.control with
  | none => (s1, .panicked nilDeref)
  | some c =>
    let s2 := { s1 with w := Controller_Finish c s1.w, trace := s1.trace ++ [Event.finish] }
    let ret (s3 : State) : State × RunOut :=
      match s3.t.beec with
      | none => (s3, .panicked nilDeref)
      | some b => (s3, .returned ((aget (Value.str "json") (s3.w.ctrls b).Data).getD Value.nil)
                                 s3.t.err)
    match s2.t.afterCallback with
    | none => ret s2
    | some f =>
      match callHook Event.after f s2 with
      | (s3, .ok) => ret s3
      | (s3, .fail e) => (s3, .returned Value.nil (some e))
      | (s3, .panics p) => (s3, .panicked p)

/-- `Run` (lines 130-164). -/
def Run (fw : Framework) (h : Body) (s : State) : State × RunOut :=
  let s0 := { s with cfg := { s.cfg with CopyRequestBody := true },
                     t := { s.t with err := none } }
  match request "GET" "" none "application/json" s0 with
  | (s1, some p) => (s1, .panicked p)
  | (s1, none) =>
    let continue_ (s2 : State) : State × RunOut :=
      match runContext fw s2 with
      | (s3, some p) => (s3, .panicked p)
      | (s3, none) => runExec h s3
    match s1.t.beforeCallback with
    | none => continue_ s1
    | some f =>
      match callHook Event.before f s1 with
      | (s2, .ok) => continue_ s2
      | (s2, .fail e) => (s2, .returned Value.nil (some e))
      | (s2, .panics p) => (s2, .panicked p)

/-! ## Concrete instances

A world with one controller object at address 0 and the framework's default
configuration, used to run the harness on concrete inputs. -/

def zeroRequest : http_Request :=
  { Method := "", URL := none, Header := [], Body := none, Form := none }

def zeroRecorder : ResponseRecorder :=
  { Code := 0, wroteHeader := false, HeaderMap := [], Body := "" }

def zeroContext : Context :=
  { Request := none, ResponseWriter := none, params := [], RequestBody := "", data := [] }

/-- The zero value `beego.Controller{}`. -/
def zeroController : beego_Controller :=
  { Ctx := none, Data := [], controllerName := "", actionName := "", TplName := "",
    Layout := "", TplExt := "", EnableRender := false, EnableXSRF := false,
    AppController := none, CruSession := none }

def world0 : World :=
  { reqs := fun _ => zeroRequest, nextReq := 0, recs := fun _ => zeroRecorder, nextRec := 0,
    ctxs := fun _ => zeroContext, nextCtx := 0, ctrls := fun _ => zeroController }

/-- The framework's own `recoverPanic` under its default settings: the abort
sentinel is dropped, any other panic is answered with status 500 on the
context's response writer and not raised again. -/
def recoverPanic : RecoverFn := fun ctx p w =>
  if p = PanicVal.errAbort then (w, none)
  else
    match (w.ctxs ctx).ResponseWriter with
    | none => (w, none)
    | some rw =>
      let r := w.recs rw
      if r.wroteHeader then (w, none)
      else ({ w with recs := store w.recs rw { r with Code := 500, wroteHeader := true } }, none)

/-- The default `beego.BConfig`. -/
def defaultBConfig : BConfig :=
  { CopyRequestBody := false, RouterCaseSensitive := true, MaxMemory := 2 ^ 26,
    RecoverFunc := some recoverPanic }

/-- A framework whose input methods read the body as it is and leave the form
to the request: enough for requests without a body. -/
def plainFramework : Framework :=
  { IsUpload := fun _ _ => false,
    CopyBody := fun ctx n w =>
      match (w.ctxs ctx).Request with
      | none => w
      | some r =>
        let c := w.ctxs ctx
        { w with ctxs := store w.ctxs ctx
                   { c with RequestBody := String.mk ((((w.reqs r).Body).getD "").data.take n) } },
    ParseFormOrMulitForm := fun ctx _ w =>
      match (w.ctxs ctx).Request with
      | none => w
      | some r =>
        let q := w.reqs r
        { w with reqs := store w.reqs r { q with Form := some (q.Form.getD []) } } }

/-- A new harness in `world0`: the state after `NewTester()`. -/
def state0 : State :=
  { t := tester.new, w := world0, cfg := defaultBConfig, trace := [] }

/-- The state after `NewTester().Controller(bc)` for the controller at address 0. -/
def bound0 : State := (tmanager_Controller (some 0) state0).1

/-- A body that stores the mapping `status:ok` under `"json"` in the controller
at address 0 and returns. -/
def bodyStatusOk : Body := fun w =>
  let c := w.ctrls 0
  ({ w with ctrls := store w.ctrls 0
              { c with Data := aset (Value.str "json") (Value.strMap [("status", "ok")]) c.Data } },
   BodyResult.returns)

/-- A body that stores `status:ok` under `"json"` and then panics with the
string `boom`; the trace the runtime reports is `stk`. -/
def bodyWriteThenPanic (stk : Bytes) : Body := fun w =>
  ((bodyStatusOk w).1, BodyResult.panics (PanicVal.val (Value.str "boom")) stk)

/-- A hook that returns the error `denied`. -/
def hookDenied : Hook := fun w => (w, HookResult.fail (errors_New "denied"))

/-- A hook that returns nil. -/
def hookNil : Hook := fun w => (w, HookResult.ok)

/-- The `Data["json"]` of the controller at `c`. -/
def dataJson (c : Ptr) (w : World) : Value :=
  (aget (Value.str "json") (w.ctrls c).Data).getD Value.nil

/-- A body that stores `v` under `"json"` in the data of the controller at `c`
and returns. -/
def storeJson (c : Ptr) (v : Value) : Body := fun w =>
  let c0 := w.ctrls c
  ({ w with ctrls := store w.ctrls c { c0 with Data := aset (Value.str "json") v c0.Data } },
   BodyResult.returns)

/-! ## Stages of `Run` -/

/-- The request line 135 synthesises. -/
def defaultRequest : http_Request :=
  { Method := "GET", URL := some "", Header := [("Content-Type", ["application/json"])],
    Body := none, Form := none }

/-- The state in which `Run` reaches line 136: body capture switched on, the
stored error cleared, the default request allocated and installed. -/
def entry (s : State) : State :=
  { s with cfg := { s.cfg with CopyRequestBody := true },
           t := { s.t with err := none, req := some s.w.nextReq },
           w := (s.w.allocReq defaultRequest).1 }

/-- The before-hook, called where `Run` calls it, leaves the request that line
135 has just created as it is: the hook holds no reference to that request. -/
def keepsRequest (s : State) : Prop :=
  ∀ f, s.t.beforeCallback = some f → (f (entry s).w).1.reqs s.w.nextReq = defaultRequest

/-- The harness is bound to the controller at `c`: both `control` and `beec`
point to it, as after `Controller(bc)`. -/
def boundTo (s : State) (c : Ptr) : Prop :=
  s.t.control = some c ∧ s.t.beec = some c

/-- The error `run` stores for a body outcome, given the error stored before. -/
def errAfter (res : BodyResult) (old : Option GoError) : Option GoError :=
  match res with
  | .returns => old
  | .panics p stack =>
    if p = PanicVal.val Value.nil ∨ p = PanicVal.errAbort then old
    else some (errors_New (String.mk stack))

/-- What `Run` returns from line 157 on, given the outcome of the after-hook
(`none` when no hook is installed), the controller's `Data["json"]` and the
stored error. -/
def outAfter (ra : Option HookResult) (v : Value) (err : Option GoError) : RunOut :=
  match ra with
  | none => RunOut.returned v err
  | some .ok => RunOut.returned v err
  | some (.fail e) => RunOut.returned Value.nil (some e)
  | some (.panics p) => RunOut.panicked p

/-- The events one call of `Run` appends to the ghost log. -/
def RunEvents (fw : Framework) (h : Body) (s : State) : List Event :=
  (Run fw h s).1.trace.drop s.trace.length

/-- The event is a hook call that returned an error or panicked. -/
def Event.hookFailed : Event → Bool
  | .before .ok => false
  | .before _ => true
  | .after .ok => false
  | .after _ => true
  | _ => false

/-- The state `s3` is one in which `Run`, started in `s` on a harness bound to
`c`, reaches the call of the body at line 155: the lifecycle so far is logged,
the pending parameters are cleared, and they sit in the new context `ctx`,
which the controller now holds, and in the form of the run's request. -/
def bodyEntry (s : State) (c : Ptr) (s3 : State) : Prop :=
  s3.t.control = some c ∧ s3.t.beec = some c ∧ s3.t.params = none ∧ s3.t.err = none ∧
  s3.t.afterCallback = s.t.afterCallback ∧ s3.t.req = some s.w.nextReq ∧
  s3.trace = s.trace ++ (s.t.beforeCallback.map fun _ => Event.before HookResult.ok).toList
               ++ [Event.init, Event.prepare] ∧
  ∃ ctx, (s3.w.ctrls c).Ctx = some ctx ∧ (s3.w.ctxs ctx).Request = some s.w.nextReq ∧
    (s3.w.ctxs ctx).params =
      (s.t.params.getD []).foldl (fun m kv => aset kv.1 (Sprint kv.2) m) [] ∧
    (s3.w.reqs s.w.nextReq).Form = some (setForm (s.t.params.getD []) [])

/-- The before-hook, if one is installed, returns nil when `Run` calls it. -/
def beforePasses (s : State) : Prop :=
  ∀ f, s.t.beforeCallback = some f → (f (entry s).w).2 = HookResult.ok

/-- A request a caller builds: a POST with a header and a body. -/
def postRequest : http_Request :=
  { Method := "POST", URL := some "/upload", Header := [("X-Token", ["abc"])],
    Body := some "payload", Form := none }

/-- A request whose method the framework does not recognise. -/
def brewRequest : http_Request :=
  { Method := "BREW", URL := some "/pot", Header := [], Body := none, Form := none }

/-- A harness bound to the controller at address 0 in a world that holds the
caller's request `r` at address 0, with `r` installed by `Request(r)`. -/
def boundWith (r : http_Request) : State :=
  Request (some 0) (tmanager_Controller (some 0) { state0 with w := (world0.allocReq r).1 }).1

/-- A body that panics with the string `boom`; the trace the runtime reports is `stk`. -/
def bodyPanic (stk : Bytes) : Body := fun w =>
  (w, BodyResult.panics (PanicVal.val (Value.str "boom")) stk)

/-- A bound harness with both hooks installed, each returning nil. -/
def hooked0 : State :=
  AfterCallback (some hookNil) (BeforeCallback (some hookNil) bound0)

/-- The trace used in the concrete runs. -/
def sampleStack : Bytes := "goroutine 1 [running]:".data

/-- The bound harness `hooked0` with an error left over from an earlier run. -/
def stale0 : State :=
  { hooked0 with t := { hooked0.t with err := some (errors_New "left over") } }

/-- A body that stores `status:ok` under `"json"` and then panics with the abort
sentinel. -/
def bodyWriteThenAbort (stk : Bytes) : Body := fun w =>
  ((bodyStatusOk w).1, BodyResult.panics PanicVal.errAbort stk)

/-- A bound harness with the pending parameter `id = 42` and a before-hook that
returns the error `denied`. -/
def denied0 : State :=
  BeforeCallback (some hookDenied) (SetParams (some [("id", Value.int 42)]) bound0)

/-- An after-hook that replaces `Data["json"]` of the controller at address 0 by
the string `replaced` and returns nil. -/
def hookReplace : Hook := fun w =>
  ((storeJson 0 (Value.str "replaced") w).1, HookResult.ok)

/-- The after-hook, if one is installed, leaves `Data["json"]` of the controller
at `c` as it finds it. -/
def afterKeepsJson (s : State) (c : Ptr) : Prop :=
  ∀ f, s.t.afterCallback = some f → ∀ w, dataJson c (f w).1 = dataJson c w

/-- The state `boundWith brewRequest` with a new response recorder allocated, at
address 0. -/
def brewRecorded : State :=
  { boundWith brewRequest with
    w := ((boundWith brewRequest).w.allocRec httptest_NewRecorder).1 }

/-! # Properties -/

/-! ## The stack capture -/

theorem runtime_Stack_length (stk buf : Bytes) :
    (runtime_Stack stk buf).2.length = buf.length := by
  simp only [runtime_Stack, List.length_append, List.length_take, List.length_drop]
  omega

theorem makeBytes_length (n : Nat) : (makeBytes n).length = n := by
  simp [makeBytes]

/-- The loop started with a buffer of `b` bytes, when `b * 2 ^ k` is the first
size in the doubling sequence that exceeds the trace: any fuel above `k` gives
the whole trace, and the buffers used are `b, 2b, ..., b * 2 ^ k`. -/
theorem printStackLoop_spec (stk : Bytes) :
    ∀ (k b : Nat), stk.length < b * 2 ^ k → (∀ j, j < k → b * 2 ^ j ≤ stk.length) →
      ∀ (fuel : Nat), k + 1 ≤ fuel → ∀ (buf : Bytes), buf.length = b →
        printStackLoop stk fuel buf = some (stk, (List.range (k + 1)).map fun j => b * 2 ^ j) := by
  intro k
  induction k with
  | zero =>
    intro b hlt _ fuel hfuel buf hbuf
    obtain ⟨f, rfl⟩ : ∃ f, fuel = f + 1 := ⟨fuel - 1, by omega⟩
    have hlen := runtime_Stack_length stk buf
    simp only [pow_zero, mul_one] at hlt
    have hmin : min buf.length stk.length = stk.length := by omega
    simp only [printStackLoop]
    rw [hlen]
    simp only [runtime_Stack, hmin, List.take_length]
    rw [if_pos (by omega)]
    simp [hbuf, List.range_succ]
  | succ k ih =>
    intro b hlt hge fuel hfuel buf hbuf
    obtain ⟨f, rfl⟩ : ∃ f, fuel = f + 1 := ⟨fuel - 1, by omega⟩
    have hlen := runtime_Stack_length stk buf
    have hb : b ≤ stk.length := by simpa using hge 0 (Nat.succ_pos k)
    have hmin : min buf.length stk.length = buf.length := by omega
    simp only [printStackLoop]
    rw [hlen]
    simp only [runtime_Stack, hmin]
    rw [if_neg (by omega)]
    have step := ih (2 * b) (by rw [pow_succ] at hlt; nlinarith)
      (fun j hj => by
        have := hge (j + 1) (by omega)
        rw [pow_succ] at this
        nlinarith)
      f (by omega) (makeBytes (2 * buf.length)) (by rw [makeBytes_length, hbuf])
    rw [step]
    simp only [Option.map_some', hbuf]
    congr 2
    rw [List.range_succ_eq_map (k + 1), List.map_cons, List.map_map]
    simp only [pow_zero, mul_one, List.cons.injEq, true_and]
    apply List.map_congr_left
    intro j _
    simp only [Function.comp, pow_succ]
    ring

/-- The capture loop from its first buffer of 1024 bytes. -/
theorem printStack_first_fit (stk : Bytes) :
    ∃ k : Nat,
      stk.length < 1024 * 2 ^ k ∧
      (∀ j, j < k → 1024 * 2 ^ j ≤ stk.length) ∧
      (∀ fuel, k + 1 ≤ fuel →
        printStackLoop stk fuel (makeBytes 1024)
          = some (stk, (List.range (k + 1)).map fun j => 1024 * 2 ^ j)) ∧
      printStack stk = stk := by
  have hex : ∃ k : Nat, stk.length < 1024 * 2 ^ k :=
    ⟨stk.length, by
      have := @Nat.lt_two_pow stk.length
      omega⟩
  classical
  refine ⟨Nat.find hex, Nat.find_spec hex, ?_, ?_, ?_⟩
  · intro j hj
    exact Nat.le_of_not_lt (Nat.find_min hex hj)
  · intro fuel hfuel
    exact printStackLoop_spec stk (Nat.find hex) 1024 (Nat.find_spec hex)
      (fun j hj => Nat.le_of_not_lt (Nat.find_min hex hj)) fuel hfuel _ (makeBytes_length _)
  · have hk : Nat.find hex ≤ stk.length :=
      Nat.find_min' hex (by
        have := @Nat.lt_two_pow stk.length
        omega)
    have := printStackLoop_spec stk (Nat.find hex) 1024 (Nat.find_spec hex)
      (fun j hj => Nat.le_of_not_lt (Nat.find_min hex hj)) (stk.length + 1) (by omega)
      (makeBytes 1024) (makeBytes_length _)
    unfold printStack
    rw [this]

theorem printStack_eq (stk : Bytes) : printStack stk = stk := by
  obtain ⟨_, _, _, _, h⟩ := printStack_first_fit stk
  exact h

/-- Claim C10.  With `runtime.Stack` writing `min (len buf) L` bytes of a trace of
`L` bytes, the capture loop of `run` terminates: there is a `k` such that every
fuel above `k` makes the loop return, the buffers it used are exactly those of
sizes `1024 * 2 ^ j` for `j = 0..k`, the last of them is the first whose size
strictly exceeds `L`, and the slice returned is the complete trace. -/
theorem printStack_complete (stk : Bytes) :
    ∃ k : Nat,
      stk.length < 1024 * 2 ^ k ∧
      (∀ j, j < k → 1024 * 2 ^ j ≤ stk.length) ∧
      (∀ fuel, k + 1 ≤ fuel →
        printStackLoop stk fuel (makeBytes 1024)
          = some (stk, (List.range (k + 1)).map fun j => 1024 * 2 ^ j)) ∧
      printStack stk = stk :=
  printStack_first_fit stk

/-! ## Stores and association maps -/

@[simp] theorem store_same {α : Type} (m : Ptr → α) (p : Ptr) (v : α) : store m p v p = v := by
  simp [store]

theorem store_ne {α : Type} (m : Ptr → α) (p q : Ptr) (v : α) (h : q ≠ p) :
    store m p v q = m q := by
  simp [store, h]

@[simp] theorem store_store {α : Type} (m : Ptr → α) (p : Ptr) (v v1 : α) :
    store (store m p v) p v1 = store m p v1 := by
  funext q
  by_cases h : q = p <;> simp [store, h]

theorem aget_aset_same {κ ν : Type} [DecidableEq κ] (k : κ) (v : ν) (m : List (κ × ν)) :
    aget k (aset k v m) = some v := by
  induction m with
  | nil => simp [aset, aget]
  | cons kv m ih =>
    obtain ⟨k1, v1⟩ := kv
    by_cases h : k1 = k <;> simp [aset, aget, h, ih]

theorem aget_aset_ne {κ ν : Type} [DecidableEq κ] (k k1 : κ) (v : ν) (m : List (κ × ν))
    (h : k1 ≠ k) : aget k (aset k1 v m) = aget k m := by
  induction m with
  | nil => simp [aset, aget, h]
  | cons kv m ih =>
    obtain ⟨k2, v2⟩ := kv
    by_cases h2 : k2 = k1
    · subst h2
      simp [aset, aget, h]
    · by_cases h3 : k2 = k
      · subst h3
        simp [aset, aget, h2]
      · simp [aset, aget, h2, h3, ih]

/-- Folding assignments over a map with pairwise distinct keys leaves under each
key the value assigned for it. -/
theorem aget_foldl_aset {κ α ν : Type} [DecidableEq κ] (g : α → ν) :
    ∀ (ps : List (κ × α)) (m : List (κ × ν)) (k : κ) (v : α),
      (ps.map Prod.fst).Nodup → aget k ps = some v →
      aget k (ps.foldl (fun m kv => aset kv.1 (g kv.2) m) m) = some (g v) := by
  have keep : ∀ (ps : List (κ × α)) (m : List (κ × ν)) (k : κ),
      k ∉ ps.map Prod.fst →
      aget k (ps.foldl (fun m kv => aset kv.1 (g kv.2) m) m) = aget k m := by
    intro ps
    induction ps with
    | nil => intro m k _; rfl
    | cons kv ps ih =>
      intro m k hk
      simp only [List.map_cons, List.mem_cons, not_or] at hk
      simp only [List.foldl_cons]
      rw [ih _ _ hk.2, aget_aset_ne _ _ _ _ (Ne.symm hk.1)]
  intro ps
  induction ps with
  | nil => intro m k v _ h; simp [aget] at h
  | cons kv ps ih =>
    intro m k v hnd h
    obtain ⟨k1, v1⟩ := kv
    simp only [List.map_cons, List.nodup_cons] at hnd
    simp only [List.foldl_cons]
    by_cases hk : k1 = k
    · subst hk
      simp only [aget, if_true, Option.some.injEq] at h
      subst h
      rw [keep _ _ _ hnd.1, aget_aset_same]
    · simp only [aget, hk, if_false] at h
      exact ih _ k v hnd.2 h

/-! ## The stages of `Run` -/

theorem store_self {α : Type} (m : Ptr → α) (p : Ptr) : store m p (m p) = m := by
  funext q
  by_cases h : q = p <;> simp [store, h]

theorem request_default (s : State) :
    request "GET" "" none "application/json" s =
      ({ s with w := (s.w.allocReq defaultRequest).1,
                t := { s.t with req := some s.w.nextReq } }, none) := by
  rfl

/-- `Run` unfolded up to the call of the before-hook. -/
theorem Run_eq (fw : Framework) (h : Body) (s : State) :
    Run fw h s =
      match s.t.beforeCallback with
      | none =>
        (match runContext fw (entry s) with
         | (s3, some p) => (s3, RunOut.panicked p)
         | (s3, none) => runExec h s3)
      | some f =>
        (match callHook Event.before f (entry s) with
         | (s2, .ok) =>
           (match runContext fw s2 with
            | (s3, some p) => (s3, RunOut.panicked p)
            | (s3, none) => runExec h s3)
         | (s2, .fail e) => (s2, RunOut.returned Value.nil (some e))
         | (s2, .panics p) => (s2, RunOut.panicked p)) := by
  unfold Run
  simp only [request_default]
  rfl

theorem setParams_eq (ctx : Ptr) :
    ∀ (ps : List (String × Value)) (w : World),
      setParams ctx ps w =
        { w with ctxs := store w.ctxs ctx
                   { w.ctxs ctx with
                     params := ps.foldl (fun m kv => aset kv.1 (Sprint kv.2) m)
                                 (w.ctxs ctx).params } } := by
  intro ps
  induction ps with
  | nil =>
    intro w
    simp [setParams, store_self]
  | cons kv ps ih =>
    intro w
    have := ih (Input_SetParam ctx kv.1 (Sprint kv.2) w)
    simp only [setParams, List.foldl_cons] at this ⊢
    rw [this]
    simp [Input_SetParam]

/-- Context construction for a GET request on a harness with a controller:
nothing panics, `Init` and `Prepare` are called, the pending parameters become
path parameters of the new context and form values of the request, and the
pending map is cleared. -/
theorem runContext_bound (fw : Framework) (s : State) (c rp : Ptr) (u : String)
    (hc : s.t.control = some c) (hr : s.t.req = some rp)
    (hm : (s.w.reqs rp).Method = "GET") (hu : (s.w.reqs rp).URL = some u) :
    ∃ s3, runContext fw s = (s3, none) ∧
      s3.t = { s.t with params := none } ∧ s3.cfg = s.cfg ∧
      s3.trace = s.trace ++ [Event.init, Event.prepare] ∧
      (s3.w.ctrls c).Ctx = some s.w.nextCtx ∧
      (s3.w.ctxs s.w.nextCtx).Request = some rp ∧
      (s3.w.ctxs s.w.nextCtx).params =
        ((s.t.params.getD []).foldl (fun m kv => aset kv.1 (Sprint kv.2) m) []) ∧
      (s3.w.reqs rp).Form =
        some (setForm (s.t.params.getD []) ((s.w.reqs rp).Form.getD [])) := by
  have hmem : "GET" ∈ HTTPMETHOD := by decide
  cases hp : s.t.params <;> cases hrf : s.cfg.RecoverFunc <;>
    simp [runContext, initContext, initContextBody, World.allocRec, World.allocCtx, hm, hu, hc,
      hr, hmem, hp, hrf, Input_Param, aget, setParams_eq, Controller_Init, Controller_Prepare,
      setForm]

/-- Lines 155-163 on a harness whose `control` and `beec` are set: the body and
`Finish` are called, then the after-hook if there is one, and the result is
decided by the after-hook's outcome. -/
theorem runExec_spec (h : Body) (s : State) (c b : Ptr)
    (hc : s.t.control = some c) (hb : s.t.beec = some b) :
    ∃ s1 ra, runExec h s = (s1, outAfter ra (dataJson b s1.w) (errAfter (h s.w).2 s.t.err)) ∧
      s1.t.params = s.t.params ∧
      s1.trace = s.trace ++ [Event.body (h s.w).2, Event.finish] ++ (ra.map Event.after).toList ∧
      (ra = none ↔ s.t.afterCallback = none) ∧
      (s.t.afterCallback = none → s1.w = (h s.w).1) := by
  rcases hh : h s.w with ⟨w1, res⟩
  have hrun : run h s = { s with w := w1, trace := s.trace ++ [Event.body res],
                                 t := { s.t with err := errAfter res s.t.err } } := by
    simp only [run, hh, errAfter]
    cases res with
    | returns => rfl
    | panics p stack =>
      by_cases hp : p = PanicVal.val Value.nil ∨ p = PanicVal.errAbort
      · simp [hp]
      · simp [hp, printStack_eq]
  cases ha : s.t.afterCallback with
  | none =>
    refine ⟨{ s with w := w1, trace := s.trace ++ [Event.body res, Event.finish],
                     t := { s.t with err := errAfter res s.t.err } }, none, ?_, ?_, ?_, ?_, ?_⟩
    · simp [runExec, hrun, hc, hb, ha, outAfter, dataJson, Controller_Finish]
    · rfl
    · simp
    · simp
    · intro _; rfl
  | some f =>
    rcases hf : f w1 with ⟨w2, ra⟩
    refine ⟨{ s with w := w2, trace := s.trace ++ [Event.body res, Event.finish, Event.after ra],
                     t := { s.t with err := errAfter res s.t.err } }, some ra, ?_, ?_, ?_, ?_, ?_⟩
    · cases ra <;>
        simp [runExec, hrun, hc, hb, ha, outAfter, dataJson, Controller_Finish, callHook, hf]
    · rfl
    · simp
    · simp
    · intro h0; cases h0

/-- The three ways a `Run` on a bound harness proceeds: the before-hook returns
an error, the before-hook panics, or the run reaches the body. -/
theorem Run_bound (fw : Framework) (h : Body) (s : State) (c : Ptr)
    (hb : boundTo s c) (hk : keepsRequest s) :
    (∃ f e, s.t.beforeCallback = some f ∧ (f (entry s).w).2 = HookResult.fail e) ∨
    (∃ f p, s.t.beforeCallback = some f ∧ (f (entry s).w).2 = HookResult.panics p ∧
        (Run fw h s).2 = RunOut.panicked p ∧
        (Run fw h s).1.trace = s.trace ++ [Event.before (HookResult.panics p)]) ∨
    (∃ s3, Run fw h s = runExec h s3 ∧ bodyEntry s c s3) := by
  obtain ⟨hc, hbe⟩ := hb
  rw [Run_eq]
  cases hbc : s.t.beforeCallback with
  | none =>
    right; right
    obtain ⟨s3, h1, h2, _, h4, h5, h6, h7, h8⟩ :=
      runContext_bound fw (entry s) c s.w.nextReq "" (by simpa [entry] using hc)
        (by simp [entry]) (by simp [entry, World.allocReq, defaultRequest])
        (by simp [entry, World.allocReq, defaultRequest])
    refine ⟨s3, by simp [h1], ?_⟩
    unfold bodyEntry
    refine ⟨by simpa [h2, entry] using hc, by simpa [h2, entry] using hbe, by simp [h2],
      by simp [h2, entry], by simp [h2, entry], by simp [h2, entry],
      by simp [h4, entry, hbc], (entry s).w.nextCtx, h5, h6, ?_, ?_⟩
    · simpa [entry] using h7
    · simpa [entry, World.allocReq, defaultRequest] using h8
  | some f =>
    have hk1 := hk f hbc
    rcases hf : f (entry s).w with ⟨w2, r⟩
    rw [hf] at hk1
    simp only at hk1
    have hcall : callHook Event.before f (entry s) =
        ({ entry s with w := w2, trace := (entry s).trace ++ [Event.before r] }, r) := by
      simp [callHook, hf]
    simp only [hcall]
    cases r with
    | fail e =>
      left
      exact ⟨f, e, rfl, by rw [hf]⟩
    | panics p =>
      right; left
      exact ⟨f, p, rfl, by rw [hf], rfl, by simp [entry]⟩
    | ok =>
      right; right
      obtain ⟨s3, h1, h2, _, h4, h5, h6, h7, h8⟩ :=
        runContext_bound fw
          { entry s with w := w2, trace := (entry s).trace ++ [Event.before HookResult.ok] }
          c s.w.nextReq "" (by simpa [entry] using hc)
          (by simp [entry]) (by simp [hk1, defaultRequest]) (by simp [hk1, defaultRequest])
      refine ⟨s3, by simp [h1], ?_⟩
      unfold bodyEntry
      refine ⟨by simpa [h2, entry] using hc, by simpa [h2, entry] using hbe, by simp [h2],
        by simp [h2, entry], by simp [h2, entry], by simp [h2, entry],
        by simp [h4, entry, hbc], w2.nextCtx, h5, h6, ?_, ?_⟩
      · simpa [entry] using h7
      · simpa [entry, hk1, defaultRequest] using h8

theorem RunEvents_eq (fw : Framework) (h : Body) (s : State) (l : List Event)
    (hl : (Run fw h s).1.trace = s.trace ++ l) : RunEvents fw h s = l := by
  simp [RunEvents, hl]

/-- Context construction never touches the harness's own fields. -/
theorem initContext_t (fw : Framework) (r rw : Option Ptr) (s : State) :
    (initContext fw r rw s).1.t = s.t := by
  have hbody : ∀ ctx (s0 : State), (initContextBody fw ctx r rw s0).1.t = s0.t := by
    intro ctx s0
    unfold initContextBody
    cases r with
    | none => rfl
    | some rp =>
      simp only
      cases (s0.w.reqs rp).URL with
      | none => rfl
      | some path =>
        simp only
        by_cases hm : (s0.w.reqs rp).Method ∉ HTTPMETHOD
        · rw [if_pos hm]
        · rw [if_neg hm]
          cases s0.t.control <;> rfl
  unfold initContext
  simp only
  split
  · rename_i f pv hm
    simp only
    exact hbody _ _
  · exact hbody _ _

/-- When lines 142-154 complete, the pending parameter map is nil. -/
theorem runContext_params (fw : Framework) (s s3 : State)
    (h3 : runContext fw s = (s3, none)) : s3.t.params = none := by
  unfold runContext at h3
  simp only at h3
  split at h3
  · simp at h3
  · split at h3
    · simp at h3
    · simp only [Prod.mk.injEq, and_true] at h3
      rw [← h3]

/-- Lines 155-163 leave the pending parameter map as it is. -/
theorem runExec_params (h : Body) (s : State) : (runExec h s).1.t.params = s.t.params := by
  have hrun : (run h s).t.params = s.t.params := by
    unfold run
    simp only
    split
    · rfl
    · split <;> rfl
  unfold runExec
  simp only
  cases (run h s).t.control with
  | none => exact hrun
  | some c =>
    simp only
    cases (run h s).t.afterCallback with
    | none =>
      simp only
      cases (run h s).t.beec <;> exact hrun
    | some f =>
      simp only [callHook]
      rcases f (Controller_Finish c (run h s).w) with ⟨w2, ra⟩
      cases ra with
      | ok =>
        simp only
        cases (run h s).t.beec <;> exact hrun
      | fail e => exact hrun
      | panics p => exact hrun

/-! ## The before-hook (claim C6) -/

/-- Claim C6.  When the before-hook returns a non-nil error `e`, `Run` returns
exactly `(nil, e)`, the only call it made is the one of the before-hook (no
`Init`, `Prepare`, body, `Finish` or after-hook), and the world is as the hook
left it. -/
theorem Run_before_error (fw : Framework) (h : Body) (s : State) (f : Hook) (e : GoError)
    (hf : s.t.beforeCallback = some f) (he : (f (entry s).w).2 = HookResult.fail e) :
    (Run fw h s).2 = RunOut.returned Value.nil (some e) ∧
      RunEvents fw h s = [Event.before (HookResult.fail e)] ∧
      (Run fw h s).1.w = (f (entry s).w).1 := by
  have hrun : Run fw h s =
      ({ entry s with w := (f (entry s).w).1,
                      trace := s.trace ++ [Event.before (HookResult.fail e)] },
       RunOut.returned Value.nil (some e)) := by
    rw [Run_eq, hf]
    simp only [callHook, he]
    rfl
  refine ⟨by rw [hrun], RunEvents_eq fw h s _ (by rw [hrun]), by rw [hrun]⟩

theorem Run_before_error_witness :
    (Run plainFramework bodyStatusOk (BeforeCallback (some hookDenied) bound0)).2
        = RunOut.returned Value.nil (some (errors_New "denied")) ∧
      RunEvents plainFramework bodyStatusOk (BeforeCallback (some hookDenied) bound0)
        = [Event.before (HookResult.fail (errors_New "denied"))] ∧
      (Run plainFramework bodyStatusOk (BeforeCallback (some hookDenied) bound0)).1.w
        = (hookDenied (entry (BeforeCallback (some hookDenied) bound0)).w).1 :=
  Run_before_error plainFramework bodyStatusOk (BeforeCallback (some hookDenied) bound0)
    hookDenied (errors_New "denied") rfl rfl

/-- When the before-hook panics, the panic leaves `Run` and the only call made
is the one of the hook. -/
theorem Run_before_panic (fw : Framework) (h : Body) (s : State) (f : Hook) (p : PanicVal)
    (hf : s.t.beforeCallback = some f) (he : (f (entry s).w).2 = HookResult.panics p) :
    (Run fw h s).2 = RunOut.panicked p ∧
      RunEvents fw h s = [Event.before (HookResult.panics p)] := by
  have hrun : Run fw h s =
      ({ entry s with w := (f (entry s).w).1,
                      trace := s.trace ++ [Event.before (HookResult.panics p)] },
       RunOut.panicked p) := by
    rw [Run_eq, hf]
    simp only [callHook, he]
    rfl
  exact ⟨by rw [hrun], RunEvents_eq fw h s _ (by rw [hrun])⟩

/-- The before-hook of a run whose log shows no failed hook call returned nil. -/
theorem beforePasses_of_events (fw : Framework) (h : Body) (s : State)
    (hhooks : ∀ ev ∈ RunEvents fw h s, ev.hookFailed = false) : beforePasses s := by
  intro f hf
  cases he : (f (entry s).w).2 with
  | ok => rfl
  | fail e =>
    have hrun : Run fw h s =
        ({ entry s with w := (f (entry s).w).1,
                        trace := s.trace ++ [Event.before (HookResult.fail e)] },
         RunOut.returned Value.nil (some e)) := by
      rw [Run_eq, hf]
      simp only [callHook, he]
      rfl
    have hev := RunEvents_eq fw h s _ (by rw [hrun])
    have := hhooks (Event.before (HookResult.fail e)) (by rw [hev]; simp)
    simp [Event.hookFailed] at this
  | panics p =>
    have hev := (Run_before_panic fw h s f p hf he).2
    have := hhooks (Event.before (HookResult.panics p)) (by rw [hev]; simp)
    simp [Event.hookFailed] at this

/-! ## Runs that reach the body -/

/-- On a bound harness whose before-hook passes, `Run` reaches line 155. -/
theorem Run_reaches_body (fw : Framework) (h : Body) (s : State) (c : Ptr)
    (hb : boundTo s c) (hk : keepsRequest s) (hp : beforePasses s) :
    ∃ s3, Run fw h s = runExec h s3 ∧ bodyEntry s c s3 := by
  rcases Run_bound fw h s c hb hk with ⟨f, e, hf, he⟩ | ⟨f, p, hf, he, _⟩ | h3
  · rw [hp f hf] at he
    cases he
  · rw [hp f hf] at he
    cases he
  · exact h3

/-- A complete account of a `Run` that reaches the body: the state at the call
of the body, the final state, the outcome of the after-hook (if any), the
result and the events logged. -/
theorem Run_complete (fw : Framework) (h : Body) (s : State) (c : Ptr)
    (hb : boundTo s c) (hk : keepsRequest s) (hp : beforePasses s) :
    ∃ s3 ra, bodyEntry s c s3 ∧
      (Run fw h s).2 = outAfter ra (dataJson c (Run fw h s).1.w) (errAfter (h s3.w).2 none) ∧
      RunEvents fw h s =
        (s.t.beforeCallback.map fun _ => Event.before HookResult.ok).toList
          ++ [Event.init, Event.prepare, Event.body (h s3.w).2, Event.finish]
          ++ (ra.map Event.after).toList ∧
      (ra = none ↔ s.t.afterCallback = none) ∧
      (Run fw h s).1.t.params = none ∧
      (s.t.afterCallback = none → (Run fw h s).1.w = (h s3.w).1) := by
  obtain ⟨s3, hrun, hentry⟩ := Run_reaches_body fw h s c hb hk hp
  have hentry1 := hentry
  obtain ⟨h1, h2, h3, h4, h5, _, h7, _⟩ := hentry1
  obtain ⟨s1, ra, e1, e2, e3, e4, e5⟩ := runExec_spec h s3 c c h1 h2
  refine ⟨s3, ra, hentry, ?_, ?_, ?_, ?_, ?_⟩
  · rw [hrun, e1, h4]
  · apply RunEvents_eq
    rw [hrun, e1, e3, h7]
    simp
  · rw [e4, h5]
  · rw [hrun, e1, e2, h3]
  · intro ha
    rw [hrun, e1]
    exact e5 (by rw [h5]; exact ha)

/-! ## The lifecycle (claim C9) -/

/-- Claim C9.  On a bound harness whose before-hook is absent or returns nil, one
`Run` makes exactly these calls, in this order: the before-hook (if installed),
`Init`, `Prepare`, the body, `Finish`, the after-hook (if installed).  The
outcome `rb` of the body is arbitrary: `Finish` and the after-hook are called
also when the body panics, with the abort sentinel or with anything else. -/
theorem Run_lifecycle_order (fw : Framework) (h : Body) (s : State) (c : Ptr)
    (hb : boundTo s c) (hk : keepsRequest s) (hp : beforePasses s) :
    ∃ (rb : BodyResult) (ra : Option HookResult),
      (ra = none ↔ s.t.afterCallback = none) ∧
      RunEvents fw h s =
        (s.t.beforeCallback.map fun _ => Event.before HookResult.ok).toList
          ++ [Event.init, Event.prepare, Event.body rb, Event.finish]
          ++ (ra.map Event.after).toList := by
  obtain ⟨s3, ra, _, _, hev, hra, _⟩ := Run_complete fw h s c hb hk hp
  exact ⟨(h s3.w).2, ra, hra, hev⟩

theorem hooked0_bound : boundTo hooked0 0 := ⟨rfl, rfl⟩

theorem hooked0_keepsRequest : keepsRequest hooked0 := by
  intro f hf
  cases hf
  rfl

theorem hooked0_beforePasses : beforePasses hooked0 := by
  intro f hf
  cases hf
  rfl

theorem Run_lifecycle_order_witness :
    ∃ (rb : BodyResult) (ra : Option HookResult),
      (ra = none ↔ hooked0.t.afterCallback = none) ∧
      RunEvents plainFramework (bodyPanic sampleStack) hooked0 =
        (hooked0.t.beforeCallback.map fun _ => Event.before HookResult.ok).toList
          ++ [Event.init, Event.prepare, Event.body rb, Event.finish]
          ++ (ra.map Event.after).toList :=
  Run_lifecycle_order plainFramework (bodyPanic sampleStack) hooked0 0
    hooked0_bound hooked0_keepsRequest hooked0_beforePasses

/-- The concrete log of a run with both hooks and a panicking body. -/
theorem Run_lifecycle_example :
    RunEvents plainFramework (bodyPanic sampleStack) hooked0 =
      [Event.before HookResult.ok, Event.init, Event.prepare,
       Event.body (BodyResult.panics (PanicVal.val (Value.str "boom")) sampleStack),
       Event.finish, Event.after HookResult.ok] := by
  decide

/-! ## Parameters (claim C2) -/

/-- Claim C2.  After `SetParams(p)` on a bound harness whose before-hook does not
fail, the next `Run` calls the body in a state `s3` where the controller holds a
context `ctx` built on the run's request `rp`, and every key `k` of `p` is both a
path parameter of `ctx` and a form value of `rp`, each holding exactly
`fmt.Sprint(p[k])`. -/
theorem SetParams_visible (fw : Framework) (h : Body) (s : State) (c : Ptr)
    (p : List (String × Value))
    (hb : boundTo s c) (hk : keepsRequest s) (hp : beforePasses s)
    (hnd : (p.map Prod.fst).Nodup) :
    ∃ s3 ctx rp form,
      Run fw h (SetParams (some p) s) = runExec h s3 ∧
      (s3.w.ctrls c).Ctx = some ctx ∧ (s3.w.ctxs ctx).Request = some rp ∧
      s3.t.req = some rp ∧ (s3.w.reqs rp).Form = some form ∧
      ∀ k v, aget k p = some v →
        Input_Param ctx k s3.w = Sprint v ∧ aget k form = some [Sprint v] ∧
        valuesGet k form = Sprint v := by
  obtain ⟨s3, hrun, hentry⟩ :=
    Run_reaches_body fw h (SetParams (some p) s) c hb hk hp
  obtain ⟨_, _, _, _, _, h6, _, ctx, h8, h9, h10, h11⟩ := hentry
  refine ⟨s3, ctx, s.w.nextReq, _, hrun, h8, h9, h6, h11, ?_⟩
  intro k v hkv
  have hform : aget k (setForm p []) = some [Sprint v] :=
    aget_foldl_aset (fun v => [Sprint v]) p [] k v hnd hkv
  refine ⟨?_, ?_, ?_⟩
  · simp only [Input_Param, h10]
    have := aget_foldl_aset (fun v => Sprint v) p [] k v hnd hkv
    simp only [SetParams, Option.getD_some]
    rw [this]
    rfl
  · simpa [SetParams] using hform
  · simp only [SetParams, Option.getD_some, valuesGet, hform]

theorem SetParams_visible_witness :
    ∃ s3 ctx rp form,
      Run plainFramework bodyStatusOk (SetParams (some [("id", Value.int 42)]) hooked0)
        = runExec bodyStatusOk s3 ∧
      (s3.w.ctrls 0).Ctx = some ctx ∧ (s3.w.ctxs ctx).Request = some rp ∧
      s3.t.req = some rp ∧ (s3.w.reqs rp).Form = some form ∧
      ∀ k v, aget k [("id", Value.int 42)] = some v →
        Input_Param ctx k s3.w = Sprint v ∧ aget k form = some [Sprint v] ∧
        valuesGet k form = Sprint v :=
  SetParams_visible plainFramework bodyStatusOk hooked0 0 [("id", Value.int 42)]
    hooked0_bound hooked0_keepsRequest hooked0_beforePasses (by decide)

/-- The example of the claim: the parameter `id = 42` reaches the handler as the
text `42`, as a path parameter of its context and as a form value of its request. -/
theorem SetParams_example :
    Sprint (Value.int 42) = "42" ∧
    (let s1 := (Run plainFramework bodyStatusOk
        (SetParams (some [("id", Value.int 42)]) bound0)).1
     (s1.w.ctrls 0).Ctx = some 1 ∧ (s1.w.ctxs 1).Request = some 1 ∧
     Input_Param 1 "id" s1.w = "42" ∧ (s1.w.reqs 1).Form = some [("id", ["42"])]) := by
  decide

/-! ## Results (claims C4 and C5) -/

/-- In the log of a run that reaches the body, the only body event is the one of
the call made at line 155. -/
theorem body_event_unique (pre : Option Event) (ra : Option HookResult) (rb r : BodyResult)
    (hpre : ∀ x, pre = some (Event.body x) → False)
    (hmem : Event.body r ∈ pre.toList
      ++ [Event.init, Event.prepare, Event.body rb, Event.finish]
      ++ (ra.map Event.after).toList) : r = rb := by
  cases pre with
  | none => cases ra <;> simp at hmem <;> exact hmem
  | some ev =>
    cases ra <;> simp at hmem <;>
      rcases hmem with h1 | h1 <;> first
        | exact h1
        | exact absurd (congrArg some h1.symm) (fun h2 => hpre r h2)

theorem after_event_mem (pre : List Event) (ra : HookResult) (rb : BodyResult) :
    Event.after ra ∈ pre ++ [Event.init, Event.prepare, Event.body rb, Event.finish]
      ++ ((some ra).map Event.after).toList := by
  simp

/-- The result of a `Run` on a bound harness in which no hook failed, in terms
of the outcome `rb` of the body: the controller's `Data["json"]` and the error
`run` stored. -/
theorem Run_result (fw : Framework) (h : Body) (s : State) (c : Ptr) (rb : BodyResult)
    (hb : boundTo s c) (hk : keepsRequest s)
    (hbody : Event.body rb ∈ RunEvents fw h s)
    (hhooks : ∀ ev ∈ RunEvents fw h s, ev.hookFailed = false) :
    (Run fw h s).2 = RunOut.returned (dataJson c (Run fw h s).1.w) (errAfter rb none) := by
  have hp := beforePasses_of_events fw h s hhooks
  obtain ⟨s3, ra, _, hout, hev, _, _, _⟩ := Run_complete fw h s c hb hk hp
  rw [hev] at hbody hhooks
  have hrb : rb = (h s3.w).2 := by
    refine body_event_unique (s.t.beforeCallback.map fun _ => Event.before HookResult.ok)
      ra _ rb ?_ ?_
    · intro x hx
      cases hbc : s.t.beforeCallback <;> simp [hbc] at hx
    · cases hbc : s.t.beforeCallback <;> simpa [hbc] using hbody
  rw [hout, ← hrb]
  cases ra with
  | none => rfl
  | some r =>
    have := hhooks (Event.after r) (after_event_mem _ r _)
    cases r <;> simp [Event.hookFailed] at this
    rfl

/-- Claim C4, as the code has it.  When the body panics with a value that is
neither nil nor `beego.ErrAbort` and no hook fails, `Run` returns the
controller's current `Data["json"]` together with a non-nil error whose text is
the captured stack trace.  The output is not reset to nil: it is whatever is
stored under `"json"` when `Run` returns. -/
theorem Run_body_panic (fw : Framework) (h : Body) (s : State) (c : Ptr)
    (p : PanicVal) (stk : Bytes)
    (hb : boundTo s c) (hk : keepsRequest s)
    (hbody : Event.body (BodyResult.panics p stk) ∈ RunEvents fw h s)
    (hnil : p ≠ PanicVal.val Value.nil) (habort : p ≠ PanicVal.errAbort)
    (hhooks : ∀ ev ∈ RunEvents fw h s, ev.hookFailed = false) :
    (Run fw h s).2 =
      RunOut.returned (dataJson c (Run fw h s).1.w) (some (errors_New (String.mk stk))) := by
  rw [Run_result fw h s c _ hb hk hbody hhooks]
  simp [errAfter, hnil, habort]

theorem Run_body_panic_witness :
    (Run plainFramework (bodyWriteThenPanic sampleStack) hooked0).2 =
      RunOut.returned
        (dataJson 0 (Run plainFramework (bodyWriteThenPanic sampleStack) hooked0).1.w)
        (some (errors_New (String.mk sampleStack))) :=
  Run_body_panic plainFramework (bodyWriteThenPanic sampleStack) hooked0 0
    (PanicVal.val (Value.str "boom")) sampleStack
    hooked0_bound hooked0_keepsRequest
    (by decide) (by decide) (by decide) (by decide)

/-- Claim C4 fails as stated: a body that stores `status:ok` under `"json"` and
then panics makes `Run` return that mapping, not nil, next to the error. -/
theorem Run_body_panic_output_not_nil :
    (Run plainFramework (bodyWriteThenPanic sampleStack) bound0).2 =
      RunOut.returned (Value.strMap [("status", "ok")])
        (some (errors_New "goroutine 1 [running]:")) ∧
    ¬ ∃ err, (Run plainFramework (bodyWriteThenPanic sampleStack) bound0).2 =
      RunOut.returned Value.nil err := by
  have hk : keepsRequest bound0 := by
    intro f hf
    cases hf
  have h1 : (Run plainFramework (bodyWriteThenPanic sampleStack) bound0).2 =
      RunOut.returned (Value.strMap [("status", "ok")])
        (some (errors_New "goroutine 1 [running]:")) := by
    rw [Run_result plainFramework (bodyWriteThenPanic sampleStack) bound0 0
      (BodyResult.panics (PanicVal.val (Value.str "boom")) sampleStack)
      ⟨rfl, rfl⟩ hk (by decide) (by decide)]
    decide
  refine ⟨h1, ?_⟩
  rintro ⟨err, h2⟩
  rw [h1] at h2
  cases h2

/-- The world lines 155-163 leave behind: the one the body left, passed through
the after-hook if one is installed (`Finish` changes nothing). -/
theorem runExec_world (h : Body) (s : State) (c : Ptr) (hc : s.t.control = some c) :
    (runExec h s).1.w =
      match s.t.afterCallback with
      | none => (h s.w).1
      | some f => (f (h s.w).1).1 := by
  have hrun : (run h s).w = (h s.w).1 ∧ (run h s).t.control = s.t.control ∧
      (run h s).t.afterCallback = s.t.afterCallback := by
    unfold run
    simp only
    split
    · exact ⟨rfl, rfl, rfl⟩
    · split <;> exact ⟨rfl, rfl, rfl⟩
  obtain ⟨hw, hctl, haft⟩ := hrun
  unfold runExec
  simp only
  rw [hctl, hc, haft]
  simp only
  cases s.t.afterCallback with
  | none =>
    simp only
    cases (run h s).t.beec <;> exact hw
  | some f =>
    simp only [callHook, Controller_Finish, hw]
    rcases f (h s.w).1 with ⟨w2, ra⟩
    cases ra with
    | ok =>
      simp only
      cases (run h s).t.beec <;> rfl
    | fail e => rfl
    | panics p => rfl

/-- The world a `Run` that reaches the body leaves behind, in terms of the state
`s3` in which the body was called. -/
theorem Run_final_world (fw : Framework) (h : Body) (s : State) (c : Ptr)
    (hb : boundTo s c) (hk : keepsRequest s) (hp : beforePasses s) :
    ∃ s3 : State, (Run fw h s).1.w =
      match s.t.afterCallback with
      | none => (h s3.w).1
      | some f => (f (h s3.w).1).1 := by
  obtain ⟨s3, hrun, hentry⟩ := Run_reaches_body fw h s c hb hk hp
  obtain ⟨h1, _, _, _, h5, _⟩ := hentry
  refine ⟨s3, ?_⟩
  rw [hrun, runExec_world h s3 c h1, h5]

/-- Claim C5, as the code has it.  On a bound harness with no failing hooks, when
the body returns normally or panics with `beego.ErrAbort`, `Run` returns the
controller's current `Data["json"]` together with a nil error, whatever error an
earlier run left in the harness.  A body that leaves a value `v` under `"json"`
makes `Run` return exactly `v` and nil, provided the after-hook, if one is
installed, leaves `Data["json"]` as it finds it. -/
theorem Run_body_ok (fw : Framework) (h : Body) (s : State) (c : Ptr) (rb : BodyResult)
    (hb : boundTo s c) (hk : keepsRequest s)
    (hbody : Event.body rb ∈ RunEvents fw h s)
    (hrb : rb = BodyResult.returns ∨ ∃ stk, rb = BodyResult.panics PanicVal.errAbort stk)
    (hhooks : ∀ ev ∈ RunEvents fw h s, ev.hookFailed = false) :
    (Run fw h s).2 = RunOut.returned (dataJson c (Run fw h s).1.w) none ∧
    ∀ v, (∀ w, dataJson c (h w).1 = v) → afterKeepsJson s c →
      (Run fw h s).2 = RunOut.returned v none := by
  have hfirst : (Run fw h s).2 = RunOut.returned (dataJson c (Run fw h s).1.w) none := by
    rw [Run_result fw h s c rb hb hk hbody hhooks]
    rcases hrb with rfl | ⟨stk, rfl⟩ <;> simp [errAfter]
  refine ⟨hfirst, ?_⟩
  intro v hv hkeep
  have hp : beforePasses s := beforePasses_of_events fw h s hhooks
  obtain ⟨s3, hw⟩ := Run_final_world fw h s c hb hk hp
  rw [hfirst, hw]
  cases ha : s.t.afterCallback with
  | none => simp only [hv]
  | some f => simp only [hkeep f ha, hv]

theorem Run_body_ok_witness :
    (Run plainFramework (bodyWriteThenAbort sampleStack) stale0).2 =
      RunOut.returned
        (dataJson 0 (Run plainFramework (bodyWriteThenAbort sampleStack) stale0).1.w) none ∧
    (Run plainFramework (bodyWriteThenAbort sampleStack) stale0).2 =
      RunOut.returned (Value.strMap [("status", "ok")]) none :=
  have t := Run_body_ok plainFramework (bodyWriteThenAbort sampleStack) stale0 0
    (BodyResult.panics PanicVal.errAbort sampleStack)
    ⟨rfl, rfl⟩ (by intro f hf; cases hf; rfl) (by decide) (Or.inr ⟨sampleStack, rfl⟩)
    (by decide)
  ⟨t.1, t.2 (Value.strMap [("status", "ok")])
    (fun w => by simp [bodyWriteThenAbort, bodyStatusOk, dataJson, aget_aset_same])
    (by intro f hf w; cases hf; rfl)⟩

/-- Claim C5 fails as stated in its last clause.  On a bound harness whose only
hook is an after-hook that returns nil after storing `replaced` under `"json"`,
no hook fails and the body stores `status:ok` and returns normally, yet `Run`
returns `replaced`, not the mapping the body stored. -/
theorem Run_after_hook_replaces_output :
    boundTo (AfterCallback (some hookReplace) bound0) 0 ∧
    RunEvents plainFramework bodyStatusOk (AfterCallback (some hookReplace) bound0)
      = [Event.init, Event.prepare, Event.body BodyResult.returns, Event.finish,
         Event.after HookResult.ok] ∧
    (Run plainFramework bodyStatusOk (AfterCallback (some hookReplace) bound0)).2
      = RunOut.returned (Value.str "replaced") none ∧
    (Run plainFramework bodyStatusOk (AfterCallback (some hookReplace) bound0)).2
      ≠ RunOut.returned (Value.strMap [("status", "ok")]) none := by
  refine ⟨⟨rfl, rfl⟩, by decide, by decide, by decide⟩

/-- The end-to-end scenario of claim C5: a body that stores `status:ok` under
`"json"` makes `Run` return exactly that mapping and a nil error, also when an
error was left over and when the body ends with the abort sentinel. -/
theorem Run_status_ok_example :
    (Run plainFramework bodyStatusOk bound0).2 =
      RunOut.returned (Value.strMap [("status", "ok")]) none ∧
    (Run plainFramework bodyStatusOk stale0).2 =
      RunOut.returned (Value.strMap [("status", "ok")]) none ∧
    (Run plainFramework (bodyWriteThenAbort sampleStack) stale0).2 =
      RunOut.returned (Value.strMap [("status", "ok")]) none := by
  decide

/-! ## The pending parameter map (claim C3) -/

theorem SetParams_none_self (s : State) (hs : s.t.params = none) : SetParams none s = s := by
  obtain ⟨t, w, cfg, trace⟩ := s
  obtain ⟨err, req, control, params, bc, ac, beec⟩ := t
  simp only at hs
  subst hs
  rfl

/-- Claim C3, as the code has it.  After a call of `Run` that returns otherwise
than with a before-hook error (an output, a panic-derived error or an after-hook
error), the pending parameter map is nil, so a subsequent `Run` is the run of a
harness with no parameters set. -/
theorem Run_clears_params (fw : Framework) (h : Body) (s : State)
    (out : Value) (err : Option GoError)
    (hret : (Run fw h s).2 = RunOut.returned out err)
    (hno : ∀ f e, s.t.beforeCallback = some f → (f (entry s).w).2 ≠ HookResult.fail e) :
    (Run fw h s).1.t.params = none ∧
    ∀ fw2 h2, Run fw2 h2 (Run fw h s).1 = Run fw2 h2 (SetParams none (Run fw h s).1) := by
  have hparams : (Run fw h s).1.t.params = none := by
    have tail : ∀ s2, (match runContext fw s2 with
          | (s3, some p) => (s3, RunOut.panicked p)
          | (s3, none) => runExec h s3).2 = RunOut.returned out err →
        (match runContext fw s2 with
          | (s3, some p) => (s3, RunOut.panicked p)
          | (s3, none) => runExec h s3).1.t.params = none := by
      intro s2
      rcases hc : runContext fw s2 with ⟨s3, p⟩
      cases p with
      | some p => intro h1; cases h1
      | none =>
        intro _
        simp only
        rw [runExec_params]
        exact runContext_params fw s2 s3 hc
    rw [Run_eq] at hret ⊢
    cases hbc : s.t.beforeCallback with
    | none =>
      rw [hbc] at hret
      exact tail _ hret
    | some f =>
      rw [hbc] at hret
      simp only [callHook] at hret ⊢
      cases hf : (f (entry s).w).2 with
      | ok =>
        rw [hf] at hret
        exact tail _ hret
      | fail e => exact absurd hf (hno f e hbc)
      | panics p =>
        rw [hf] at hret
        cases hret
  exact ⟨hparams, fun fw2 h2 => by rw [SetParams_none_self _ hparams]⟩

theorem Run_clears_params_witness :
    (Run plainFramework bodyStatusOk (SetParams (some [("id", Value.int 42)]) hooked0)).1.t.params
      = none ∧
    ∀ fw2 h2,
      Run fw2 h2 (Run plainFramework bodyStatusOk
        (SetParams (some [("id", Value.int 42)]) hooked0)).1
      = Run fw2 h2 (SetParams none (Run plainFramework bodyStatusOk
        (SetParams (some [("id", Value.int 42)]) hooked0)).1) :=
  Run_clears_params plainFramework bodyStatusOk
    (SetParams (some [("id", Value.int 42)]) hooked0)
    (Value.strMap [("status", "ok")]) none (by decide)
    (by intro f e hf; cases hf; intro h0; cases h0)

/-- Claim C3 fails as stated: a `Run` stopped by a before-hook error returns with
the pending parameter map still in place, and the next `Run` (here with the
hook replaced by one that passes) injects the earlier parameter. -/
theorem Run_before_error_keeps_params :
    (Run plainFramework bodyStatusOk denied0).2
      = RunOut.returned Value.nil (some (errors_New "denied")) ∧
    (Run plainFramework bodyStatusOk denied0).1.t.params = some [("id", Value.int 42)] ∧
    (let s1 := (Run plainFramework bodyStatusOk
        (BeforeCallback (some hookNil) (Run plainFramework bodyStatusOk denied0).1)).1
     (s1.w.ctrls 0).Ctx = some 1 ∧ Input_Param 1 "id" s1.w = "42" ∧
     (s1.w.ctxs 1).Request = some 2 ∧ (s1.w.reqs 2).Form = some [("id", ["42"])]) := by
  decide

/-! ## The installed request (claim C1) -/

/-- Claim C1 fails on the code.  Line 135 replaces the request unconditionally, so
a request installed with `Request(r)` never reaches the context: a `Run` after
`Request(r)` is the same as a `Run` without it.  For a POST request with a
header and a body installed on a bound harness, the context is built on a new
GET request with content type `application/json` and no body, and the
installed request is left aside untouched. -/
theorem Run_ignores_installed_request :
    (∀ (fw : Framework) (h : Body) (r : Option Ptr) (s : State),
      Run fw h (Request r s) = Run fw h s) ∧
    (boundWith postRequest).t.req = some 0 ∧
    (let s1 := (Run plainFramework bodyStatusOk (boundWith postRequest)).1
     s1.w.reqs 0 = postRequest ∧ s1.t.req = some 2 ∧
     (s1.w.ctrls 0).Ctx = some 1 ∧ (s1.w.ctxs 1).Request = some 2 ∧
     (s1.w.reqs 2).Method = "GET" ∧ (s1.w.reqs 2).Body = none ∧
     (s1.w.reqs 2).Header = [("Content-Type", ["application/json"])]) := by
  refine ⟨fun fw h r s => rfl, by decide, by decide⟩

/-! ## The unbound harness (claim C7) -/

/-- Claim C7 fails on the code for `Run`.  `SetSession` and `AddCookie` check the
binding first and panic, leaving the state as it was.  `Run` has no such check:
on a harness that was never bound it calls the before-hook, and returns the
hook's error like any run.  After `Reset`, which clears `beec` but not
`control`, `Run` goes through the whole lifecycle (before-hook, `Init`,
`Prepare`, body, `Finish`, after-hook) and panics only at the final read of
`Data`. -/
theorem Run_unbound_runs_hooks :
    (∀ (s : State) (name value : Value), s.t.beec = none →
      SetSession name value s = (s, some (PanicVal.val (Value.str "beego.Controller can not nil")))) ∧
    (∀ (s : State) (name value : String), s.t.beec = none →
      AddCookie name value s = (s, some (PanicVal.val (Value.str "beego.Controller can not nil")))) ∧
    (Run plainFramework bodyStatusOk (BeforeCallback (some hookDenied) state0)).2
      = RunOut.returned Value.nil (some (errors_New "denied")) ∧
    RunEvents plainFramework bodyStatusOk (BeforeCallback (some hookDenied) state0)
      = [Event.before (HookResult.fail (errors_New "denied"))] ∧
    (Reset hooked0).t.beec = none ∧
    (Run plainFramework bodyStatusOk (Reset hooked0)).2 = RunOut.panicked nilDeref ∧
    RunEvents plainFramework bodyStatusOk (Reset hooked0)
      = [Event.before HookResult.ok, Event.init, Event.prepare,
         Event.body BodyResult.returns, Event.finish, Event.after HookResult.ok] := by
  refine ⟨?_, ?_, by decide, by decide, by decide, by decide, by decide⟩
  · intro s name value hs
    simp [SetSession, hs]
  · intro s name value hs
    simp [AddCookie, hs]

/-! ## A method the framework does not recognise (claim C8) -/

/-- For a request whose method is not in `beego.HTTPMETHOD`, `initContext`
(lines 201-204) writes status 405 with the text `Method Not Allowed` to a
response writer that has not written its header yet and returns, without
calling `Init` or `Prepare` and without touching any controller. -/
theorem initContext_405 (fw : Framework) (s : State) (rp rw : Ptr) (u : String)
    (hm : (s.w.reqs rp).Method ∉ HTTPMETHOD) (hu : (s.w.reqs rp).URL = some u)
    (hw : (s.w.recs rw).wroteHeader = false) :
    ∃ s1, initContext fw (some rp) (some rw) s = (s1, none) ∧
      (s1.w.recs rw).Code = 405 ∧
      (s1.w.recs rw).Body = (s.w.recs rw).Body ++ "Method Not Allowed" ++ "\n" ∧
      s1.trace = s.trace ∧ s1.w.ctrls = s.w.ctrls := by
  cases hrf : s.cfg.RecoverFunc <;>
    simp [initContext, initContextBody, World.allocCtx, hm, hu, hrf, http_Error, hw]

/-- Claim C8 fails on the code.  Given the `BREW` request and a new recorder,
`initContext` itself answers 405 and returns without `Init` or `Prepare`.  But
with that request installed by `Request(r)` on a bound harness, `Run` never
hands it to `initContext`: line 135 has replaced it by a GET request, so the
recorder of the run keeps status 200, `Init` and `Prepare` are called, the body
is executed and its output is returned with a nil error. -/
theorem Run_method_not_allowed_runs_body :
    ((boundWith brewRequest).w.reqs 0).Method ∉ HTTPMETHOD ∧
    (boundWith brewRequest).t.req = some 0 ∧
    (initContext plainFramework (some 0) (some 0) brewRecorded).2 = none ∧
    ((initContext plainFramework (some 0) (some 0) brewRecorded).1.w.recs 0).Code = 405 ∧
    (initContext plainFramework (some 0) (some 0) brewRecorded).1.trace = [] ∧
    (let s1 := (Run plainFramework bodyStatusOk (boundWith brewRequest)).1
     (s1.w.ctrls 0).Ctx = some 1 ∧ (s1.w.ctxs 1).Request = some 2 ∧
     (s1.w.ctxs 1).ResponseWriter = some 0 ∧ (s1.w.reqs 2).Method = "GET" ∧
     (s1.w.recs 0).Code = 200 ∧ (s1.w.recs 0).Body = "") ∧
    RunEvents plainFramework bodyStatusOk (boundWith brewRequest)
      = [Event.init, Event.prepare, Event.body BodyResult.returns, Event.finish] ∧
    (Run plainFramework bodyStatusOk (boundWith brewRequest)).2
      = RunOut.returned (Value.strMap [("status", "ok")]) none := by
  refine ⟨by decide, by decide, by decide, by decide, by decide, by decide, by decide,
    by decide⟩

end Tester
